import Mathlib

/-!
Verification of the memento (undo/redo) engine of `jquery.sketchable.memento.js`.

The source keeps a private stack of snapshots (`var stack = []; var stpos = -1;`)
inside `MementoCanvas`, with operations `prev` (undo), `next` (redo), `reset`,
`save` and `restore`.  We embed the state and the operations shallowly:

* bitmaps (`toDataURL()` results) and stroke records are opaque values,
  modelled as natural-number codes;
* JavaScript array `.slice()` makes a top-level copy, so at the level of list
  values it is the identity; where aliasing itself is at stake (the `restore`
  function) a small heap model makes array identity explicit;
* the asynchronous image decodes issued by `prev`/`next` (`new Image();
  snapshot.src = ...; snapshot.onload = ...`) are modelled by a queue of
  pending decodes whose completions may be interleaved with further calls.
-/

namespace JSketch

/-- Opaque encoded-bitmap value (a `canvas.toDataURL()` string in the source). -/
abbrev Bitmap := Nat

/-- Opaque stroke record (one element of `data.strokes`). -/
abbrev Stroke := Nat

/-- One history entry, as pushed by `save`:
`{ image: elem[0].toDataURL(), strokes: data.strokes.slice() }`. -/
structure Snapshot where
  image   : Bitmap
  strokes : List Stroke
deriving DecidableEq

/-- The live drawing surface as the plugin observes it through the handler:
the current bitmap encoding (`elem[0].toDataURL()`) and the live stroke
buffer (`data.strokes`). -/
structure Surface where
  bitmap  : Bitmap
  strokes : List Stroke
deriving DecidableEq

/-- Private state of one `MementoCanvas` instance:
`var stack = []; var stpos = -1;`. -/
structure MementoCanvas where
  stack : List Snapshot
  stpos : Int
deriving DecidableEq

/-- The state right after construction (`stack = []`, `stpos = -1`). -/
def MementoCanvas.initial : MementoCanvas := ⟨[], -1⟩

/-- `prev()`: `if (stpos > 0) { stpos--; ... }`.  The cursor update is
synchronous; the decode it issues is modelled in `AsyncState.undo`. -/
def prev (m : MementoCanvas) : MementoCanvas :=
  if 0 < m.stpos then { m with stpos := m.stpos - 1 } else m

/-- `next()`: `if (stpos < stack.length - 1) { stpos++; ... }`. -/
def next (m : MementoCanvas) : MementoCanvas :=
  if m.stpos < (m.stack.length : Int) - 1 then { m with stpos := m.stpos + 1 } else m

/-- `reset()`: `stack = []; stpos = -1;`. -/
def reset (_ : MementoCanvas) : MementoCanvas := ⟨[], -1⟩

/-- The continuation test in `save`: `evt && evt.identifier > 0`.
`none` models calling `save()` with no event argument. -/
def isContinuationEvt : Option Int → Bool
  | some id => decide (0 < id)
  | none    => false

/-- `save(evt)`.  Continuation branch (`evt && evt.identifier > 0`):
`stack[stpos].strokes = data.strokes.slice();` — this faults with a TypeError
when `stack[stpos]` is `undefined` (negative or out-of-range index).
Otherwise: `stack.push({ image: elem[0].toDataURL(), strokes:
data.strokes.slice() }); stpos++;`.  `.slice()` copies the array, which at the
level of list values is the list itself. -/
def save (m : MementoCanvas) (s : Surface) (evt : Option Int) : Except String MementoCanvas :=
  if isContinuationEvt evt then
    if 0 ≤ m.stpos then
      match m.stack[m.stpos.toNat]? with
      | some snap =>
          .ok { m with stack := m.stack.set m.stpos.toNat { snap with strokes := s.strokes } }
      | none => .error "TypeError: stack[stpos] is undefined"
    else .error "TypeError: stack[stpos] is undefined"
  else
    .ok { stack := m.stack ++ [{ image := s.bitmap, strokes := s.strokes }],
          stpos := m.stpos + 1 }

/-- The plugin's `clear` event callback: `data.memento.reset().save()` —
`save` is called without an event, so it is a plain append capturing the
surface as the host left it after clearing. -/
def clearCallback (m : MementoCanvas) (s : Surface) : Except String MementoCanvas :=
  save (reset m) s none

/-! ### Asynchronous decode model

`prev`/`next` issue an image decode (`new Image(); snapshot.src =
stack[stpos].image`) whose `onload` later runs `restore(this)`.  `restore`
clears the surface, draws the decoded full-canvas snapshot, and sets
`data.strokes = stack[stpos].strokes.slice()` — reading `stpos` at completion
time.  Nothing compares the completing decode against the current cursor. -/

/-- Fallback snapshot for indexing; never read from states satisfying the
stack invariant (where the source would otherwise fault). -/
def defaultSnapshot : Snapshot := ⟨0, []⟩

/-- A run-time configuration while decodes are in flight: the memento state,
the surface, and the images whose decodes were issued but whose `onload`
has not fired yet, in issue order. -/
structure AsyncState where
  store   : MementoCanvas
  surface : Surface
  pending : List Bitmap
deriving DecidableEq

/-- `undo()`/`prev()` with the decode issue explicit: when the guard fires,
the cursor moves and a decode of `stack[stpos].image` is queued. -/
def AsyncState.undo (st : AsyncState) : AsyncState :=
  if 0 < st.store.stpos then
    let m : MementoCanvas := { st.store with stpos := st.store.stpos - 1 }
    { st with store := m,
              pending := st.pending ++ [(m.stack.getD m.stpos.toNat defaultSnapshot).image] }
  else st

/-- `redo()`/`next()` with the decode issue explicit. -/
def AsyncState.redo (st : AsyncState) : AsyncState :=
  if st.store.stpos < (st.store.stack.length : Int) - 1 then
    let m : MementoCanvas := { st.store with stpos := st.store.stpos + 1 }
    { st with store := m,
              pending := st.pending ++ [(m.stack.getD m.stpos.toNat defaultSnapshot).image] }
  else st

/-- The `onload` of the `i`-th pending decode fires: `restore(this)` runs,
clearing the surface, drawing the decoded full-canvas snapshot over it (so the
surface bitmap becomes exactly that image), and replacing the live strokes by
`stack[stpos].strokes.slice()` with `stpos` read now.  The decode result is
applied unconditionally: there is no staleness check against the cursor. -/
def AsyncState.complete (st : AsyncState) (i : Nat) : AsyncState :=
  match st.pending[i]? with
  | some img =>
      { st with
        surface := { bitmap := img,
                     strokes := (st.store.stack.getD st.store.stpos.toNat
                                   defaultSnapshot).strokes },
        pending := st.pending.eraseIdx i }
  | none => st

/-! ### Heap model of `restore` for the aliasing claim

JavaScript arrays are heap references; `stack[stpos].strokes.slice()` allocates
a fresh array with the same contents and `data.strokes = ...` repoints the live
buffer at it.  We model just enough of the heap to state that the stored
entry's array and the live buffer are distinct objects after `restore`. -/

/-- A heap of stroke arrays; a reference is an index into `arrays`. -/
structure Heap where
  arrays : List (List Stroke)
deriving DecidableEq

/-- Dereference an array. -/
def Heap.read (h : Heap) (r : Nat) : List Stroke := h.arrays.getD r []

/-- Overwrite the array behind reference `r` (models in-place mutation of the
live buffer, e.g. replacing it or pushing further strokes). -/
def Heap.write (h : Heap) (r : Nat) (v : List Stroke) : Heap := ⟨h.arrays.set r v⟩

/-- Allocate a fresh array holding `v`; returns the new heap and the fresh
reference. -/
def Heap.alloc (h : Heap) (v : List Stroke) : Heap × Nat :=
  (⟨h.arrays ++ [v]⟩, h.arrays.length)

/-- A snapshot whose stroke list is a heap reference. -/
structure RSnapshot where
  image      : Bitmap
  strokesRef : Nat
deriving DecidableEq

/-- The surface with its live stroke buffer as a heap reference. -/
structure RSurface where
  bitmap     : Bitmap
  strokesRef : Nat
deriving DecidableEq

/-- `restore(snapshot)` over the heap model: `data.sketch.clear()` then
`data.sketch.graphics.drawImage(snapshot, 0, 0)` leaves exactly the decoded
full-canvas bitmap on the surface, and `data.strokes =
stack[stpos].strokes.slice()` allocates a fresh copy of the entry's stroke
array and points the live buffer at it. -/
def restoreHeap (h : Heap) (entry : RSnapshot) (decoded : Bitmap) : Heap × RSurface :=
  let p := h.alloc (h.read entry.strokesRef)
  (p.1, { bitmap := decoded, strokesRef := p.2 })

/-! ### Reachability invariant and the operation language -/

/-- The stack invariant: the cursor stays in `[-1, stack.length - 1]` and is
`-1` exactly on the empty stack. -/
def Inv (m : MementoCanvas) : Prop :=
  -1 ≤ m.stpos ∧ m.stpos ≤ (m.stack.length : Int) - 1 ∧ (m.stpos = -1 ↔ m.stack = [])

instance (m : MementoCanvas) : Decidable (Inv m) := by
  unfold Inv; infer_instance

/-- The operations a caller can issue against the store (a non-continuation
`save` carries the surface it captures). -/
inductive Op where
  | reset
  | undo
  | redo
  | save (s : Surface)
deriving DecidableEq

/-- Apply one operation to the store state (`save` with no event never
faults, so the `Except` is always `ok`). -/
def applyOp (m : MementoCanvas) : Op → MementoCanvas
  | .reset  => JSketch.reset m
  | .undo   => prev m
  | .redo   => next m
  | .save s => ((save m s none).toOption).getD m

end JSketch

namespace JSketch

/-! ### Concrete states used by counterexamples and witnesses -/

/-- A two-entry stack with the cursor rewound to 0 (reachable via
`save; save; undo`). -/
def rewoundStack : MementoCanvas := ⟨[⟨10, []⟩, ⟨20, [5]⟩], 0⟩

/-- A two-entry stack with the cursor at the top. -/
def twoEntryStack : MementoCanvas := ⟨[⟨1, []⟩, ⟨2, []⟩], 1⟩

/-- A three-entry stack with the cursor strictly inside. -/
def threeEntryStack : MementoCanvas := ⟨[⟨1, []⟩, ⟨2, []⟩, ⟨3, []⟩], 1⟩

/-- The raced run for the stale-decode scenario: stack `[⟨10,[1]⟩, ⟨20,[1,2]⟩]`,
cursor at 1 with the surface showing entry 1; `undo()` is issued, then `redo()`
before the undo decode resolves; the redo decode (index 1) completes first and
the older undo decode (index 0) completes last. -/
def raceTrace : AsyncState :=
  ((((⟨⟨[⟨10, [1]⟩, ⟨20, [1, 2]⟩], 1⟩, ⟨20, [1, 2]⟩, []⟩ : AsyncState).undo.redo).complete
      1).complete 0)

end JSketch

namespace JSketch

/-- C1: the claimed stale-decode guard does not exist in the code.  In the
raced run (`undo()` then `redo()` before the undo decode resolves, with the
undo decode completing last) the final cursor is 1 (the `redo()` target), yet
the surface bitmap is the image of entry 0 (the stale `undo()` target) and
differs from the image of the entry at the current cursor: the late completion
is applied, not discarded. -/
theorem stale_decode_overwrites_redo_target :
    raceTrace.store.stpos = 1 ∧
    raceTrace.surface.bitmap = (raceTrace.store.stack.getD 0 defaultSnapshot).image ∧
    raceTrace.surface.bitmap ≠
      (raceTrace.store.stack.getD raceTrace.store.stpos.toNat defaultSnapshot).image := by
  decide

/-- C2 (counterexample): a non-continuation `save()` after the cursor was
rewound by `undo()` leaves the cursor at 1 while `entries.length - 1 = 2`, so
the cursor does not equal the new last index. -/
theorem save_after_rewind_cursor_below_top :
    save rewoundStack ⟨30, [7]⟩ none =
      .ok ⟨[⟨10, []⟩, ⟨20, [5]⟩, ⟨30, [7]⟩], 1⟩ ∧
    (⟨[⟨10, []⟩, ⟨20, [5]⟩, ⟨30, [7]⟩], 1⟩ : MementoCanvas).stpos ≠
      ((⟨[⟨10, []⟩, ⟨20, [5]⟩, ⟨30, [7]⟩], 1⟩ : MementoCanvas).stack.length : Int) - 1 :=
  ⟨rfl, by decide⟩

/-- C2 (amended): a non-continuation `save()` appends the snapshot
`{image, strokes}` of the current surface and increments the cursor by exactly
one; consequently the cursor equals `entries.length - 1` afterwards exactly
when it already was at the last index before the save (so not after a rewind
by `undo()`). -/
theorem save_appends_and_increments (m : MementoCanvas) (s : Surface) :
    ∃ m', save m s none = .ok m' ∧
      m'.stack = m.stack ++ [{ image := s.bitmap, strokes := s.strokes }] ∧
      m'.stpos = m.stpos + 1 ∧
      (m'.stpos = (m'.stack.length : Int) - 1 ↔ m.stpos = (m.stack.length : Int) - 1) := by
  refine ⟨_, rfl, rfl, rfl, ?_⟩
  simp only [List.length_append, List.length_cons, List.length_nil]
  omega

/-- C6: a save carrying continuation semantics (`evt.identifier > 0`) on the
empty stack (`stpos = -1`) does not append a fresh capture: the source
executes `stack[stpos].strokes = ...` with `stack[-1]` undefined, i.e. it
faults with a TypeError instead of failing closed. -/
theorem continuation_save_on_empty_faults (s : Surface) (id : Int) (hid : 0 < id) :
    save ⟨[], -1⟩ s (some id) = .error "TypeError: stack[stpos] is undefined" := by
  unfold save
  rw [show isContinuationEvt (some id) = true from by
        simp [isContinuationEvt]; omega]
  simp

theorem continuation_save_on_empty_faults_witness :
    (0 : Int) < 1 ∧
    save ⟨[], -1⟩ ⟨0, []⟩ (some 1) = .error "TypeError: stack[stpos] is undefined" :=
  ⟨by decide, continuation_save_on_empty_faults ⟨0, []⟩ 1 (by decide)⟩

/-- C7: the `clear` callback (`reset().save()`) always yields a one-entry
stack with the cursor at 0, the single entry being a fresh capture of the
surface as the host left it after clearing (blank). -/
theorem clear_event_reseeds_single_blank (m : MementoCanvas) (s : Surface) :
    clearCallback m s = .ok ⟨[{ image := s.bitmap, strokes := s.strokes }], 0⟩ := rfl

end JSketch

namespace JSketch

/-- `prev` with a positive cursor decrements it. -/
lemma prev_of_pos {m : MementoCanvas} (h : 0 < m.stpos) :
    prev m = { m with stpos := m.stpos - 1 } := by
  unfold prev; rw [if_pos h]

/-- `prev` at the bottom (or on the empty stack) is the identity. -/
lemma prev_of_nonpos {m : MementoCanvas} (h : m.stpos ≤ 0) :
    prev m = m := by
  unfold prev; rw [if_neg (by omega)]

/-- `next` strictly below the top increments the cursor. -/
lemma next_of_lt {m : MementoCanvas} (h : m.stpos < (m.stack.length : Int) - 1) :
    next m = { m with stpos := m.stpos + 1 } := by
  unfold next; rw [if_pos h]

/-- `next` at the top is the identity. -/
lemma next_of_ge {m : MementoCanvas} (h : (m.stack.length : Int) - 1 ≤ m.stpos) :
    next m = m := by
  unfold next; rw [if_neg (by omega)]

/-- C4: for every state satisfying the stack invariant, `undo` at
`cursor ≤ 0` and `redo` at `cursor = entries.length - 1` leave the state
untouched (both are total functions, so no error is raised), and otherwise
`undo` decrements and `redo` increments the cursor by exactly one, leaving
the entries unchanged. -/
theorem undo_redo_boundary_noops (m : MementoCanvas) (hinv : Inv m) :
    (m.stpos ≤ 0 → prev m = m) ∧
    (0 < m.stpos → (prev m).stack = m.stack ∧ (prev m).stpos = m.stpos - 1) ∧
    (m.stpos = (m.stack.length : Int) - 1 → next m = m) ∧
    (m.stpos ≠ (m.stack.length : Int) - 1 →
      (next m).stack = m.stack ∧ (next m).stpos = m.stpos + 1) := by
  obtain ⟨hlo, hhi, -⟩ := hinv
  refine ⟨fun h => prev_of_nonpos h, fun h => ?_, fun h => next_of_ge (by omega), fun h => ?_⟩
  · rw [prev_of_pos h]; exact ⟨rfl, rfl⟩
  · rw [next_of_lt (by omega)]; exact ⟨rfl, rfl⟩

theorem undo_redo_boundary_noops_witness :
    Inv twoEntryStack ∧
    ((twoEntryStack.stpos ≤ 0 → prev twoEntryStack = twoEntryStack) ∧
     (0 < twoEntryStack.stpos →
       (prev twoEntryStack).stack = twoEntryStack.stack ∧
       (prev twoEntryStack).stpos = twoEntryStack.stpos - 1) ∧
     (twoEntryStack.stpos = (twoEntryStack.stack.length : Int) - 1 →
       next twoEntryStack = twoEntryStack) ∧
     (twoEntryStack.stpos ≠ (twoEntryStack.stack.length : Int) - 1 →
       (next twoEntryStack).stack = twoEntryStack.stack ∧
       (next twoEntryStack).stpos = twoEntryStack.stpos + 1)) :=
  ⟨by decide, undo_redo_boundary_noops twoEntryStack (by decide)⟩

/-- C5: for a cursor strictly inside `[1, entries.length - 2]`, `undo()`
immediately followed by `redo()` restores the exact pre-undo state: the same
cursor value and the same (unchanged) entries, hence the same current entry. -/
theorem undo_then_redo_roundtrip (m : MementoCanvas) (h1 : 1 ≤ m.stpos)
    (h2 : m.stpos ≤ (m.stack.length : Int) - 2) :
    next (prev m) = m := by
  rw [prev_of_pos (by omega)]
  rw [next_of_lt (by simpa using by omega)]
  obtain ⟨stack, stpos⟩ := m
  simp

theorem undo_then_redo_roundtrip_witness :
    1 ≤ threeEntryStack.stpos ∧
    threeEntryStack.stpos ≤ (threeEntryStack.stack.length : Int) - 2 ∧
    next (prev threeEntryStack) = threeEntryStack :=
  ⟨by decide, by decide,
    undo_then_redo_roundtrip threeEntryStack (by decide) (by decide)⟩

end JSketch

namespace JSketch

/-- C3: a continuation save (`evt.identifier > 0`) on a state whose cursor
addresses an existing entry keeps the cursor, the stack length and every
entry's bitmap unchanged; it only replaces — wholesale — the stroke list of
the entry at the cursor with the current surface strokes, leaving every other
entry untouched. -/
theorem continuation_save_amends_cursor_entry (m : MementoCanvas) (s : Surface) (id : Int)
    (hid : 0 < id) (h0 : 0 ≤ m.stpos) (hlen : m.stpos.toNat < m.stack.length) :
    ∃ m', save m s (some id) = .ok m' ∧
      m'.stpos = m.stpos ∧
      m'.stack.length = m.stack.length ∧
      (∀ j : Nat, (m'.stack[j]?).map Snapshot.image = (m.stack[j]?).map Snapshot.image) ∧
      (m'.stack[m.stpos.toNat]?).map Snapshot.strokes = some s.strokes ∧
      (∀ j : Nat, j ≠ m.stpos.toNat → m'.stack[j]? = m.stack[j]?) := by
  obtain ⟨snap, hsnap⟩ : ∃ snap, m.stack[m.stpos.toNat]? = some snap :=
    ⟨_, List.getElem?_eq_getElem hlen⟩
  have hsave : save m s (some id) =
      .ok { m with stack := m.stack.set m.stpos.toNat { snap with strokes := s.strokes } } := by
    unfold save
    rw [show isContinuationEvt (some id) = true from by
          simp [isContinuationEvt]; omega]
    rw [if_pos rfl, if_pos h0, hsnap]
  refine ⟨_, hsave, rfl, by simp, ?_, ?_, ?_⟩
  · intro j
    by_cases hji : j = m.stpos.toNat
    · subst hji
      rw [List.getElem?_set_self (by simpa using hlen), hsnap]
      simp
    · rw [List.getElem?_set_ne (by omega)]
  · rw [List.getElem?_set_self (by simpa using hlen)]
    simp
  · intro j hji
    rw [List.getElem?_set_ne (by omega)]

theorem continuation_save_amends_cursor_entry_witness :
    (0 : Int) < 1 ∧ (0 : Int) ≤ (⟨[⟨10, [1]⟩], 0⟩ : MementoCanvas).stpos ∧
    ((⟨[⟨10, [1]⟩], 0⟩ : MementoCanvas).stpos.toNat <
      (⟨[⟨10, [1]⟩], 0⟩ : MementoCanvas).stack.length) ∧
    (∃ m', save ⟨[⟨10, [1]⟩], 0⟩ ⟨20, [2, 3]⟩ (some 1) = .ok m' ∧
      m'.stpos = (⟨[⟨10, [1]⟩], 0⟩ : MementoCanvas).stpos ∧
      m'.stack.length = (⟨[⟨10, [1]⟩], 0⟩ : MementoCanvas).stack.length ∧
      (∀ j : Nat, (m'.stack[j]?).map Snapshot.image =
        ((⟨[⟨10, [1]⟩], 0⟩ : MementoCanvas).stack[j]?).map Snapshot.image) ∧
      (m'.stack[(⟨[⟨10, [1]⟩], 0⟩ : MementoCanvas).stpos.toNat]?).map Snapshot.strokes =
        some (⟨20, [2, 3]⟩ : Surface).strokes ∧
      (∀ j : Nat, j ≠ (⟨[⟨10, [1]⟩], 0⟩ : MementoCanvas).stpos.toNat →
        m'.stack[j]? = (⟨[⟨10, [1]⟩], 0⟩ : MementoCanvas).stack[j]?)) :=
  ⟨by decide, by decide, by decide,
    continuation_save_amends_cursor_entry ⟨[⟨10, [1]⟩], 0⟩ ⟨20, [2, 3]⟩ 1
      (by decide) (by decide) (by decide)⟩

/-- C8: a non-continuation `save()` strictly grows the stack and leaves every
pre-existing entry present and unchanged at its index — there is no forward
truncation of the redo branch, even after an `undo()` rewind. -/
theorem save_never_discards_entries (m : MementoCanvas) (s : Surface) (j : Nat)
    (hj : j < m.stack.length) :
    ∃ m', save m s none = .ok m' ∧ m.stack.length < m'.stack.length ∧
      m'.stack[j]? = m.stack[j]? := by
  refine ⟨_, rfl, by simp, ?_⟩
  exact List.getElem?_append_left hj

theorem save_never_discards_entries_witness :
    0 < rewoundStack.stack.length ∧
    (∃ m', save rewoundStack ⟨30, [7]⟩ none = .ok m' ∧
      rewoundStack.stack.length < m'.stack.length ∧
      m'.stack[0]? = rewoundStack.stack[0]?) :=
  ⟨by decide, save_never_discards_entries rewoundStack ⟨30, [7]⟩ 0 (by decide)⟩

/-- C9: for a valid stored entry, `restore` leaves the decoded bitmap on the
cleared surface, makes the live stroke buffer a fresh top-level copy of the
entry's stroke list (same contents, distinct heap reference), and any later
overwrite of the live buffer — replacement or extension — leaves the stored
entry's list unchanged: the two are not aliased. -/
theorem restore_copies_strokes_unaliased (h : Heap) (entry : RSnapshot) (decoded : Bitmap)
    (href : entry.strokesRef < h.arrays.length) :
    ((restoreHeap h entry decoded).2).bitmap = decoded ∧
    ((restoreHeap h entry decoded).1).read ((restoreHeap h entry decoded).2).strokesRef =
      h.read entry.strokesRef ∧
    ((restoreHeap h entry decoded).2).strokesRef ≠ entry.strokesRef ∧
    ∀ v : List Stroke,
      (((restoreHeap h entry decoded).1).write
          ((restoreHeap h entry decoded).2).strokesRef v).read entry.strokesRef =
        h.read entry.strokesRef := by
  refine ⟨rfl, ?_, by simp [restoreHeap, Heap.alloc]; omega, ?_⟩
  · simp [restoreHeap, Heap.alloc, Heap.read, List.getElem?_concat_length]
  · intro v
    simp only [restoreHeap, Heap.alloc, Heap.write, Heap.read,
      List.getD_eq_getElem?_getD]
    rw [List.getElem?_set_ne (by omega), List.getElem?_append_left href]

theorem restore_copies_strokes_unaliased_witness :
    (⟨5, 0⟩ : RSnapshot).strokesRef < (⟨[[1, 2]]⟩ : Heap).arrays.length ∧
    ((restoreHeap ⟨[[1, 2]]⟩ ⟨5, 0⟩ 7).2).bitmap = 7 ∧
    ((restoreHeap ⟨[[1, 2]]⟩ ⟨5, 0⟩ 7).1).read
        ((restoreHeap ⟨[[1, 2]]⟩ ⟨5, 0⟩ 7).2).strokesRef =
      (⟨[[1, 2]]⟩ : Heap).read 0 ∧
    ((restoreHeap ⟨[[1, 2]]⟩ ⟨5, 0⟩ 7).2).strokesRef ≠ (⟨5, 0⟩ : RSnapshot).strokesRef ∧
    (((restoreHeap ⟨[[1, 2]]⟩ ⟨5, 0⟩ 7).1).write
        ((restoreHeap ⟨[[1, 2]]⟩ ⟨5, 0⟩ 7).2).strokesRef [1, 2, 9]).read 0 =
      (⟨[[1, 2]]⟩ : Heap).read 0 :=
  ⟨by decide,
    (restore_copies_strokes_unaliased ⟨[[1, 2]]⟩ ⟨5, 0⟩ 7 (by decide)).1,
    (restore_copies_strokes_unaliased ⟨[[1, 2]]⟩ ⟨5, 0⟩ 7 (by decide)).2.1,
    (restore_copies_strokes_unaliased ⟨[[1, 2]]⟩ ⟨5, 0⟩ 7 (by decide)).2.2.1,
    (restore_copies_strokes_unaliased ⟨[[1, 2]]⟩ ⟨5, 0⟩ 7 (by decide)).2.2.2 [1, 2, 9]⟩

end JSketch

namespace JSketch

/-- The constructed state satisfies the stack invariant. -/
lemma inv_initial : Inv MementoCanvas.initial := by decide

/-- Every store operation preserves the stack invariant. -/
lemma inv_applyOp (m : MementoCanvas) (op : Op) (h : Inv m) : Inv (applyOp m op) := by
  obtain ⟨h1, h2, h3⟩ := h
  cases op with
  | reset => exact inv_initial
  | undo =>
    show Inv (prev m)
    by_cases hc : 0 < m.stpos
    · rw [prev_of_pos hc]
      refine ⟨show -1 ≤ m.stpos - 1 by omega,
              show m.stpos - 1 ≤ (m.stack.length : Int) - 1 by omega, ?_⟩
      show m.stpos - 1 = -1 ↔ m.stack = []
      constructor
      · intro hx; exfalso; omega
      · intro hx; exfalso; rw [hx] at h2; simp at h2; omega
    · rw [prev_of_nonpos (by omega)]; exact ⟨h1, h2, h3⟩
  | redo =>
    show Inv (next m)
    by_cases hc : m.stpos < (m.stack.length : Int) - 1
    · rw [next_of_lt hc]
      refine ⟨show -1 ≤ m.stpos + 1 by omega,
              show m.stpos + 1 ≤ (m.stack.length : Int) - 1 by omega, ?_⟩
      show m.stpos + 1 = -1 ↔ m.stack = []
      constructor
      · intro hx; exfalso; omega
      · intro hx; exfalso; rw [hx] at hc; simp at hc; omega
    · rw [next_of_ge (by omega)]; exact ⟨h1, h2, h3⟩
  | save s =>
    show Inv { stack := m.stack ++ [{ image := s.bitmap, strokes := s.strokes }],
               stpos := m.stpos + 1 }
    refine ⟨show -1 ≤ m.stpos + 1 by omega, ?_, ?_⟩
    · show m.stpos + 1 ≤
        ((m.stack ++ [({ image := s.bitmap, strokes := s.strokes } : Snapshot)]).length : Int) - 1
      simp only [List.length_append, List.length_cons, List.length_nil]
      omega
    · show m.stpos + 1 = -1 ↔
        m.stack ++ [({ image := s.bitmap, strokes := s.strokes } : Snapshot)] = []
      constructor
      · intro hx; exfalso; omega
      · intro hx; exfalso; simp at hx

/-- C10: starting from the freshly constructed state (`stack = []`,
`stpos = -1`), every sequence of `reset`, `undo`, `redo` and non-continuation
`save` operations keeps the cursor in `[-1, entries.length - 1]`, with
`cursor = -1` exactly when the stack is empty. -/
theorem ops_preserve_stack_invariant (ops : List Op) :
    Inv (ops.foldl applyOp MementoCanvas.initial) := by
  have main : ∀ (l : List Op) (m : MementoCanvas), Inv m → Inv (l.foldl applyOp m) := by
    intro l
    induction l with
    | nil => intro m h; exact h
    | cons op l ih =>
      intro m h
      exact ih _ (inv_applyOp m op h)
  exact main ops _ inv_initial

end JSketch
